import Mathlib

/-!
# Verification of the connect-session lifecycle coordinator

Shallow embedding of the `connect-session` middleware (JavaScript) in Lean 4.

The embedding covers:
* the per-request dirty-check state (`Tracking`) and the predicates
  `isModified`, `isSaved`, `shouldSave`, `shouldTouch`, `shouldSetCookie`
  from `index.js`;
* the wrapped response-completion entry point (`endCall` / `endEvents`);
* cookie-identity resolution (`getcookie`, `unsigncookie`, `resolveSession`);
* the store-fetch callback (`handleFetch`);
* the `Cookie` max-age / expires accessors from `session/cookie.js`;
* the in-memory reference store from `session/memory.js`
  (`getSession`, `touch`, `all`, `length`);
* `Store.prototype.regenerate` from `session/store.js`.

Modelling conventions:
* JavaScript timestamps (`Date`) are `Int` milliseconds; `Date.now()` is an
  explicit `now : Int` argument threaded to every operation that reads the
  clock.
* `undefined` / `null` become `Option`.
* The SHA-1 content fingerprint `hash(sess)` in the source is
  `sha1(JSON.stringify(sess minus the top-level cookie key))` and is used
  exclusively as an equality proxy for the serialized content.  The session
  content is modelled as an association list of fields (the `cookie`
  property is held in a separate component, exactly as the replacer excludes
  it, and the non-enumerable `id` property is never serialized), and the
  fingerprint is the serialized content itself.
-/

set_option autoImplicit false

namespace ConnectSession

/-- A live session record: the non-enumerable identifier `sess.id`, the
enumerable application content fields (an association list, JSON values
rendered as strings), and the embedded cookie metadata that matters to the
coordinator (`cookie.expires`, `cookie.secure`).  The cookie is a separate
component because the source's serialization replacer omits the top-level
`cookie` key. -/
structure Sess where
  id : String
  fields : List (String × String)
  cookieExpires : Option Int
  cookieSecure : Bool
deriving DecidableEq

/-- `hash(sess)` from `index.js`: the stable serialization of every session
field except the cookie (the SHA-1 digest is modelled as the serialized
content itself, since the digest is only ever compared for equality). -/
def sessHash (sess : Sess) : List (String × String) :=
  sess.fields

/-- The per-request closure state of the middleware: `cookieId` (the
identifier the client presented, `none` when no valid signed cookie
arrived), `originalId` and `originalHash` (captured by `generate()` /
`inflate()`), and `savedHash` (set by the wrapped `save` and, with resave
disabled, seeded by `inflate()`; `none` models `undefined`). -/
structure Tracking where
  cookieId : Option String
  originalId : String
  originalHash : List (String × String)
  savedHash : Option (List (String × String))
deriving DecidableEq

/-- `isModified(sess)`: identifier changed or content hash changed. -/
def isModified (t : Tracking) (sess : Sess) : Bool :=
  decide (t.originalId ≠ sess.id) || decide (t.originalHash ≠ sessHash sess)

/-- `isSaved(sess)`: identifier unchanged and current hash equals the saved
hash (`savedHash === hash(sess)` is false when `savedHash` is undefined). -/
def isSaved (t : Tracking) (sess : Sess) : Bool :=
  decide (t.originalId = sess.id) && decide (t.savedHash = some (sessHash sess))

/-- `inflate(req, sess)`: records the presented identifier as original,
captures the content hash, and — when resave is disabled — seeds the saved
hash with it.  The created session's `id` is `req.sessionID`, i.e. the
presented cookie identifier. -/
def inflateTracking (resave : Bool) (cookieId : String) (sess : Sess) : Tracking :=
  { cookieId := some cookieId
    originalId := cookieId
    originalHash := sessHash sess
    savedHash := if resave then none else some (sessHash sess) }

/-- The wrapped `save` from `wrapmethods`: records the current content hash
as the saved hash before delegating to the real save. -/
def saveTracking (t : Tracking) (sess : Sess) : Tracking :=
  { t with savedHash := some (sessHash sess) }

/-- `shouldSave(req)`: `false` for a non-string `req.sessionID` (modelled as
`none`); otherwise the source's conditional
`!saveUninitialized && !savedHash && cookieId !== req.sessionID
  ? isModified(req.session) : !isSaved(req.session)`. -/
def shouldSave (saveUninitialized : Bool) (t : Tracking) (sid : Option String)
    (sess : Sess) : Bool :=
  match sid with
  | none => false
  | some s =>
    if !saveUninitialized && t.savedHash.isNone && decide (t.cookieId ≠ some s) then
      isModified t sess
    else
      !(isSaved t sess)

/-- `shouldTouch(req)`: `false` for a non-string identifier; otherwise
`cookieId === req.sessionID && !shouldSave(req)`. -/
def shouldTouch (saveUninitialized : Bool) (t : Tracking) (sid : Option String)
    (sess : Sess) : Bool :=
  match sid with
  | none => false
  | some s =>
    decide (t.cookieId = some s) && !(shouldSave saveUninitialized t sid sess)

/-- `shouldSetCookie(req)`: `false` for a non-string identifier; otherwise
`cookieId !== req.sessionID ? saveUninitialized || isModified(req.session)
  : rolling || (req.session.cookie.expires != null && isModified(req.session))`. -/
def shouldSetCookie (saveUninitialized rolling : Bool) (t : Tracking)
    (sid : Option String) (sess : Sess) : Bool :=
  match sid with
  | none => false
  | some s =>
    if decide (t.cookieId ≠ some s) then
      saveUninitialized || isModified t sess
    else
      rolling || (decide (sess.cookieExpires ≠ none) && isModified t sess)

/-- Outcome of the pre-header hook installed via `onHeaders`. -/
inductive HeaderOutcome where
  | emit
  | skip
deriving DecidableEq

/-- The `onHeaders` hook from `index.js`: skip without a session, skip when
`shouldSetCookie` is false, skip a secure cookie on an insecure request,
otherwise touch once and emit the `Set-Cookie` header. -/
def onHeadersAction (saveUninitialized rolling : Bool) (t : Tracking)
    (sid : Option String) (session : Option Sess) (reqSecure : Bool) : HeaderOutcome :=
  match session with
  | none => .skip
  | some sess =>
    if !(shouldSetCookie saveUninitialized rolling t sid sess) then .skip
    else if sess.cookieSecure && !reqSecure then .skip
    else .emit

/-! ## Response completion gate (`res.end` wrapper in `index.js`) -/

/-- Coordinator configuration consulted at completion time. -/
structure EndCfg where
  saveUninitialized : Bool
  unsetDestroy : Bool
  storeImplementsTouch : Bool
deriving DecidableEq

/-- The request as seen at completion: `sessionID` is `none` when
`req.sessionID` is not a string (undefined, or corrupted by a caller), and
`session` is `none` when `req.session` is null/undefined. -/
structure EndReq where
  sessionID : Option String
  session : Option Sess
deriving DecidableEq

/-- JavaScript truthiness of `req.sessionID` (a string is falsy exactly when
empty). -/
def sidTruthy : Option String → Bool
  | none => false
  | some s => decide (s ≠ "")

/-- `shouldDestroy(req)`: `req.sessionID && unsetDestroy && req.session == null`. -/
def shouldDestroy (cfg : EndCfg) (req : EndReq) : Bool :=
  sidTruthy req.sessionID && cfg.unsetDestroy && req.session.isNone

/-- Observable events of one completion invocation, in order: store writes
issued from inside the wrapped `end`, and `finish` for the call to the
underlying `_end` (which the source performs inside the store operation's
callback, hence after the write is acknowledged). -/
inductive Ev where
  | saveOp : Ev
  | touchOp : Option String → Ev
  | destroyOp : Option String → Ev
  | finish : Ev
deriving DecidableEq

/-- Result value of the wrapped `end`: the sentinel `false` returned when the
response already ended, or the normal completion return. -/
inductive EndRet where
  | alreadyEnded
  | completed
deriving DecidableEq

/-- The store-write-then-complete trace of a first `end` invocation,
following the source's dispatch: destroy when `shouldDestroy`, plain
completion when no session, else save / touch / skip.  (The `touch()` of the
session cookie performed just before the decision only refreshes
`cookie.expires`, which the content hash excludes, so it cannot change any
of the predicates consulted here.) -/
def endEvents (cfg : EndCfg) (t : Tracking) (req : EndReq) : List Ev :=
  if shouldDestroy cfg req then [.destroyOp req.sessionID, .finish]
  else
    match req.session with
    | none => [.finish]
    | some sess =>
      if shouldSave cfg.saveUninitialized t req.sessionID sess then
        [.saveOp, .finish]
      else if cfg.storeImplementsTouch && shouldTouch cfg.saveUninitialized t req.sessionID sess then
        [.touchOp req.sessionID, .finish]
      else [.finish]

/-- One invocation of the wrapped `res.end`: takes the `ended` flag closed
over by the wrapper and returns the new flag, the events performed, and the
return value (`if (ended) return false` yields the sentinel with no
events). -/
def endCall (cfg : EndCfg) (t : Tracking) (req : EndReq) (ended : Bool) :
    Bool × List Ev × EndRet :=
  if ended then (true, [], .alreadyEnded)
  else (true, endEvents cfg t req, .completed)

/-! ## Identity resolution (`getcookie` / `unsigncookie` in `index.js`)

The external `cookie-signature` primitive is abstracted as a parameter
`unsign1 : String → String → Option String` (per-secret verification,
`none` for the source's `false`); `unsigncookie` is the source's loop over
the configured secrets. -/

/-- The request fields `getcookie` reads: the parsed cookie header (`none`
when no header), and the deprecated `req.signedCookies` / `req.cookies`
maps populated by an external cookie parser. -/
structure CReq where
  header : Option (List (String × String))
  signedCookies : Option (List (String × String))
  cookies : Option (List (String × String))
deriving DecidableEq

/-- JavaScript property access `cookies[name]` on a parsed cookie map:
first binding wins. -/
def lookupStr : List (String × String) → String → Option String
  | [], _ => none
  | (k, v) :: rest, name => if k = name then some v else lookupStr rest name

/-- `unsigncookie(val, secrets)`: try each secret in order, return the first
successful verification, else `false` (here `none`). -/
def unsigncookie (unsign1 : String → String → Option String) (val : String) :
    List String → Option String
  | [] => none
  | s :: rest =>
    match unsign1 val s with
    | some r => some r
    | none => unsigncookie unsign1 val rest

/-- JavaScript falsiness of the running `val` in `getcookie` (`undefined` or
the empty string). -/
def falsyStr : Option String → Bool
  | none => true
  | some s => decide (s = "")

/-- First block of `getcookie`: read the named cookie from the header; a
value carrying the `s:` prefix is unsigned (`false` becomes `undefined`),
anything else is ignored. -/
def getcookieHeader (unsign1 : String → String → Option String)
    (secrets : List String) (name : String)
    (header : Option (List (String × String))) : Option String :=
  match header with
  | none => none
  | some cookies =>
    match lookupStr cookies name with
    | none => none
    | some raw =>
      if raw = "" then none
      else if raw.take 2 = "s:" then unsigncookie unsign1 (raw.drop 2) secrets
      else none

/-- Second block of `getcookie` (deprecated back-compat): when the value so
far is falsy and `req.signedCookies` exists, re-read `val` from it. -/
def getcookieSigned (name : String) (signedCookies : Option (List (String × String)))
    (val : Option String) : Option String :=
  if falsyStr val then
    match signedCookies with
    | none => val
    | some sc => lookupStr sc name
  else val

/-- Third block of `getcookie` (deprecated back-compat): when the value so
far is falsy and `req.cookies` exists, unsign an `s:`-prefixed raw value
from it (a truthy raw value without the prefix leaves `val` untouched). -/
def getcookieUnsigned (unsign1 : String → String → Option String)
    (secrets : List String) (name : String)
    (cookies : Option (List (String × String))) (val : Option String) : Option String :=
  if falsyStr val then
    match cookies with
    | none => val
    | some cs =>
      match lookupStr cs name with
      | none => val
      | some raw =>
        if raw = "" then val
        else if raw.take 2 = "s:" then unsigncookie unsign1 (raw.drop 2) secrets
        else val
  else val

/-- `getcookie(req, name, secrets)`: the three blocks in source order. -/
def getcookie (unsign1 : String → String → Option String) (req : CReq)
    (name : String) (secrets : List String) : Option String :=
  getcookieUnsigned unsign1 secrets name req.cookies
    (getcookieSigned name req.signedCookies
      (getcookieHeader unsign1 secrets name req.header))

/-- What the middleware does with the resolved identifier. -/
inductive Resolve where
  | generated
  | fetch (id : String)
deriving DecidableEq

/-- The dispatch after `req.sessionID = getcookie(...)`: a falsy identifier
(`undefined` or empty) generates a fresh session, otherwise the store is
asked to fetch it. -/
def resolveSession (unsign1 : String → String → Option String) (req : CReq)
    (name : String) (secrets : List String) : Resolve :=
  match getcookie unsign1 req name secrets with
  | none => .generated
  | some s => if s = "" then .generated else .fetch s

/-! ## Store-fetch callback (`store.get(...)` handler in `index.js`) -/

/-- A JavaScript error object, reduced to the `code` the handler reads. -/
structure JsErr where
  code : String
deriving DecidableEq

/-- How the fetch callback disposes of the request. -/
inductive FetchHandling where
  | attachError (code : String)
  | generated
  | inflated (sess : Sess)
deriving DecidableEq

/-- The `store.get` callback: a non-`ENOENT` error aborts with that error; an
`ENOENT` error or a missing record generates a fresh session; a record is
inflated. -/
def handleFetch (err : Option JsErr) (sess : Option Sess) : FetchHandling :=
  match err with
  | some e => if e.code ≠ "ENOENT" then .attachError e.code else .generated
  | none =>
    match sess with
    | none => .generated
    | some s => .inflated s

/-! ## Cookie metadata accessors (`session/cookie.js`)

`Date.now()` is an explicit `now : Int`; a `Date` is its `Int` timestamp;
`null` is `none`. -/

/-- The `Cookie` prototype state: `_expires` backs the `expires` accessor
pair, `originalMaxAge` is recomputed by the `expires` setter. -/
structure Cookie where
  path : String
  httpOnly : Bool
  secure : Bool
  originalMaxAge : Option Int
  _expires : Option Int
deriving DecidableEq

/-- The `expires` getter. -/
def Cookie.getExpires (c : Cookie) : Option Int :=
  c._expires

/-- The `maxAge` getter:
`this.expires instanceof Date ? this.expires.valueOf() - Date.now() : this.expires`. -/
def Cookie.getMaxAge (c : Cookie) (now : Int) : Option Int :=
  match c._expires with
  | some t => some (t - now)
  | none => none

/-- The `expires` setter: store the date and recompute `originalMaxAge` from
the new value via the `maxAge` getter. -/
def Cookie.setExpires (c : Cookie) (now : Int) (date : Option Int) : Cookie :=
  let c1 : Cookie := { c with _expires := date }
  { c1 with originalMaxAge := c1.getMaxAge now }

/-- The `maxAge` setter:
`this.expires = typeof ms === 'number' ? new Date(Date.now() + ms) : ms`. -/
def Cookie.setMaxAge (c : Cookie) (now : Int) (ms : Option Int) : Cookie :=
  match ms with
  | some m => c.setExpires now (some (now + m))
  | none => c.setExpires now none

/-! ## Reference store (`session/memory.js`)

The backing object `this.sessions` is an association list with unique keys
(a JavaScript object); the serialized snapshot `JSON.stringify(session)` is
modelled as the parsed value itself, JSON serialization being injective on
the values stored. -/

/-- The cookie part of a stored snapshot: the (revived) expiration instant
and the remaining cookie attributes, opaque to the store. -/
structure SCookie where
  expires : Option Int
  attrs : List (String × String)
deriving DecidableEq

/-- A stored session snapshot: the embedded cookie metadata (absent when the
snapshot has no `cookie` key) and the remaining content fields. -/
structure StoredSess where
  cookie : Option SCookie
  fields : List (String × String)
deriving DecidableEq

/-- The state of a `MemoryStore`. -/
abbrev MemStore := List (String × StoredSess)

/-- Property read `this.sessions[sessionId]`. -/
def storeLookup : MemStore → String → Option StoredSess
  | [], _ => none
  | (k, v) :: rest, sid => if k = sid then some v else storeLookup rest sid

/-- `delete this.sessions[sessionId]`. -/
def storeDelete (m : MemStore) (sid : String) : MemStore :=
  m.filter fun p => decide (p.1 ≠ sid)

/-- `this.sessions[sessionId] = ...`: replace in place when the key exists,
append otherwise. -/
def storeSet (m : MemStore) (sid : String) (s : StoredSess) : MemStore :=
  if (storeLookup m sid).isSome then
    m.map fun p => if p.1 = sid then (sid, s) else p
  else m ++ [(sid, s)]

/-- The expiry test in `getSession`: `expires && expires <= Date.now()`.  A
revived `Date` is always truthy, so only the presence of an expiration and
the comparison matter. -/
def cookieExpired (c : Option SCookie) (now : Int) : Bool :=
  match c with
  | none => false
  | some ck =>
    match ck.expires with
    | none => false
    | some e => decide (e ≤ now)

/-- `getSession(sessionId)` from `memory.js`: parse the stored snapshot,
lazily deleting and hiding it when its embedded cookie expiration has
passed.  Returns the fetched snapshot and the (possibly pruned) store. -/
def getSession (m : MemStore) (sid : String) (now : Int) :
    Option StoredSess × MemStore :=
  match storeLookup m sid with
  | none => (none, m)
  | some sess =>
    if cookieExpired sess.cookie now then (none, storeDelete m sid)
    else (some sess, m)

/-- `MemoryStore.prototype.touch`: fetch via `getSession`; when a current
session exists, overwrite only its `cookie` field and store the result; the
callback is always invoked without error (second component). -/
def touch (m : MemStore) (sid : String) (sess : StoredSess) (now : Int) :
    MemStore × Option JsErr :=
  match getSession m sid now with
  | (some cur, m1) => (storeSet m1 sid { cur with cookie := sess.cookie }, none)
  | (none, m1) => (m1, none)

/-- The loop body of `MemoryStore.prototype.all`: walk the snapshot of keys,
fetch each via `getSession` (pruning expired entries), and collect the
sessions found. -/
def allGo (now : Int) : List String → List (String × StoredSess) → MemStore →
    List (String × StoredSess) × MemStore
  | [], acc, m => (acc, m)
  | sid :: rest, acc, m =>
    match getSession m sid now with
    | (some s, m1) => allGo now rest (acc ++ [(sid, s)]) m1
    | (none, m1) => allGo now rest acc m1

/-- `MemoryStore.prototype.all`: iterate over `Object.keys(this.sessions)`
taken before the loop. -/
def allSessions (m : MemStore) (now : Int) :
    List (String × StoredSess) × MemStore :=
  allGo now (m.map Prod.fst) [] m

/-- `MemoryStore.prototype.length`: delegate to `all` and count the keys of
the result. -/
def lengthSessions (m : MemStore) (now : Int) : Nat × MemStore :=
  let r := allSessions m now
  (r.1.length, r.2)

/-- The entries of a store whose embedded cookie expiration is absent or
strictly after `now` (the claim's characterisation of `all`'s result). -/
def unexpiredEntries (m : MemStore) (now : Int) : MemStore :=
  m.filter fun p => !(cookieExpired p.2.cookie now)

/-! ## `Store.prototype.regenerate` (`session/store.js`)

`this.destroy(req.sessionID, err => { this.generate(req); fn(err) })`.
The pluggable `generate` hook (installed by the middleware) assigns a fresh
identifier and a fresh empty session to the request; its outputs are the
`freshId` / `freshSess` parameters, and the destroy outcome is the
`destroyErr` parameter.  The result is the updated request, the store
events issued (the destroy is keyed by the identifier held *before* the
generate hook runs), and the error handed to the callback. -/
def regenerate (req : EndReq) (destroyErr : Option JsErr) (freshId : String)
    (freshSess : Sess) : EndReq × List Ev × Option JsErr :=
  ({ sessionID := some freshId, session := some freshSess },
   [Ev.destroyOp req.sessionID],
   destroyErr)

/-! ## Theorems -/

/-- Claim C2: a session is "modified" exactly when its identifier differs
from the one recorded at load/generate time or its content hash (the
serialization of all fields except the cookie) differs from the recorded
hash; it is "already saved" exactly when the identifier is unchanged and the
current hash equals the hash recorded at the most recent save — seeded at
inflate time when resave is disabled. -/
theorem spec_c2_dirty_check (t : Tracking) (sess : Sess) (resave : Bool)
    (cid : String) (s0 s1 : Sess) :
    (isModified t sess = true ↔
      t.originalId ≠ sess.id ∨ t.originalHash ≠ sessHash sess)
    ∧ (isSaved t sess = true ↔
      t.originalId = sess.id ∧ t.savedHash = some (sessHash sess))
    ∧ (∀ ck cs, sessHash { sess with cookieExpires := ck, cookieSecure := cs }
        = sessHash sess)
    ∧ (inflateTracking resave cid s0).originalId = cid
    ∧ (inflateTracking resave cid s0).originalHash = sessHash s0
    ∧ (inflateTracking resave cid s0).savedHash
        = (if resave then none else some (sessHash s0))
    ∧ (saveTracking t s1).savedHash = some (sessHash s1) := by
  refine ⟨?_, ?_, fun ck cs => rfl, rfl, rfl, rfl, rfl⟩
  · simp [isModified]
  · simp [isSaved]

/-- Claim C4: with a session attached and a string identifier, the
`Set-Cookie` header is emitted exactly when (identifier changed and
(save-uninitialized or modified)) or (identifier unchanged and (rolling or
(a non-null expiration and modified))), and emission is suppressed whenever
the cookie is secure but the request is not. -/
theorem spec_c4_set_cookie (sU r : Bool) (t : Tracking) (s : String) (sess : Sess)
    (reqSecure : Bool) :
    onHeadersAction sU r t (some s) (some sess) reqSecure = .emit ↔
      ((t.cookieId ≠ some s ∧ (sU = true ∨ isModified t sess = true))
        ∨ (t.cookieId = some s
            ∧ (r = true ∨ (sess.cookieExpires ≠ none ∧ isModified t sess = true))))
      ∧ ¬(sess.cookieSecure = true ∧ reqSecure = false) := by
  by_cases hc : t.cookieId = some s <;>
    by_cases he : sess.cookieExpires = (none : Option Int) <;>
      cases hM : isModified t sess <;>
        cases hS : sess.cookieSecure <;>
          cases sU <;> cases r <;> cases reqSecure <;>
            simp [onHeadersAction, shouldSetCookie, hc, he, hM, hS]

/-- Claim C6: the store-fetch callback generates a fresh session on an
`ENOENT` error or on a missing record, and propagates any other error
without attaching a session. -/
theorem spec_c6_fetch_callback (e : JsErr) (sess : Option Sess) :
    handleFetch (some e) sess
        = (if e.code = "ENOENT" then .generated else .attachError e.code)
    ∧ handleFetch none none = .generated := by
  constructor
  · by_cases h : e.code = "ENOENT" <;> simp [handleFetch, h]
  · rfl

/-- Claim C7: setting max-age to `m` at instant `t` makes the absolute
expiration `t + m`; reading max-age back at any instant returns the
expiration minus that instant (the two views never disagree); setting the
expiration directly derives the same max-age; setting either to null yields
a null expiration and a null max-age. -/
theorem spec_c7_cookie_maxage (c : Cookie) (t m e u : Int) :
    (c.setMaxAge t (some m)).getExpires = some (t + m)
    ∧ (c.setMaxAge t (some m)).getMaxAge u = some (t + m - u)
    ∧ (c.setExpires t (some e)).getExpires = some e
    ∧ (c.setExpires t (some e)).getMaxAge u = some (e - u)
    ∧ ((c.setMaxAge t none).getExpires = none
        ∧ (c.setMaxAge t none).getMaxAge u = none)
    ∧ ((c.setExpires t none).getExpires = none
        ∧ (c.setExpires t none).getMaxAge u = none)
    ∧ (∀ c2 : Cookie, c2.getMaxAge u = Option.map (fun x => x - u) c2.getExpires) := by
  refine ⟨rfl, rfl, rfl, rfl, ⟨rfl, rfl⟩, ⟨rfl, rfl⟩, fun c2 => ?_⟩
  rcases c2 with ⟨p, ho, se, om, ex⟩
  cases ex <;> rfl

/-- Claim C10: `Store.regenerate` destroys the entry keyed by the request's
pre-existing identifier and then invokes the generate hook unconditionally —
a fresh identifier and session are attached even when destroy reports an
error, and the destroy error (or null) is what reaches the callback. -/
theorem spec_c10_regenerate (req : EndReq) (e : JsErr) (fid : String) (fs : Sess) :
    (regenerate req (some e) fid fs).1 = { sessionID := some fid, session := some fs }
    ∧ (regenerate req none fid fs).1 = { sessionID := some fid, session := some fs }
    ∧ (regenerate req (some e) fid fs).2.1 = [Ev.destroyOp req.sessionID]
    ∧ (regenerate req none fid fs).2.1 = [Ev.destroyOp req.sessionID]
    ∧ (regenerate req (some e) fid fs).2.2 = some e
    ∧ (regenerate req none fid fs).2.2 = none :=
  ⟨rfl, rfl, rfl, rfl, rfl, rfl⟩

/-- Claim C3: the wrapped completion entry point is idempotent — with the
ended flag set, a further invocation performs no store write, changes no
state, and returns the sentinel; the first invocation issues its store
writes (at most one) strictly before the underlying completion event. -/
theorem spec_c3_completion_idempotent (cfg : EndCfg) (t : Tracking) (req : EndReq) :
    endCall cfg t req true = (true, [], .alreadyEnded)
    ∧ ∃ ops, endCall cfg t req false = (true, ops ++ [Ev.finish], .completed)
        ∧ Ev.finish ∉ ops ∧ ops.length ≤ 1 := by
  refine ⟨rfl, ?_⟩
  obtain ⟨ops, hops, hnf, hlen⟩ :
      ∃ ops, endEvents cfg t req = ops ++ [Ev.finish]
        ∧ Ev.finish ∉ ops ∧ ops.length ≤ 1 := by
    unfold endEvents
    split
    · exact ⟨[Ev.destroyOp req.sessionID], rfl, by simp, by simp⟩
    · split
      · exact ⟨[], rfl, by simp, by simp⟩
      · split
        · exact ⟨[Ev.saveOp], rfl, by simp, by simp⟩
        · split
          · exact ⟨[Ev.touchOp req.sessionID], rfl, by simp, by simp⟩
          · exact ⟨[], rfl, by simp, by simp⟩
  exact ⟨ops, by rw [show endCall cfg t req false
    = (true, endEvents cfg t req, .completed) from rfl, hops], hnf, hlen⟩

/-- The save condition exactly as claim C1 states it, a plain disjunction:
(save-uninitialized disabled AND no saved hash yet AND presented identifier
differs from the current one AND modified) OR not already saved.  Kept to be
compared against the source's `shouldSave`. -/
def claimSaveDecision (saveUninitialized : Bool) (t : Tracking) (s : String)
    (sess : Sess) : Bool :=
  (!saveUninitialized && t.savedHash.isNone && decide (t.cookieId ≠ some s)
      && isModified t sess)
    || !(isSaved t sess)

/-- The save condition as amended: when save-uninitialized is disabled, no
saved hash has been recorded yet and the presented identifier differs from
the current one, save exactly when the session is modified; in every other
case save exactly when the session is not already saved. -/
def amendedSaveDecision (saveUninitialized : Bool) (t : Tracking) (s : String)
    (sess : Sess) : Bool :=
  if !saveUninitialized && t.savedHash.isNone && decide (t.cookieId ≠ some s) then
    isModified t sess
  else !(isSaved t sess)

/-- Claim C1 (as amended): at completion with a session attached, a
non-string identifier yields no store operation at all; with a string
identifier, a save is performed exactly per the amended (conditional) save
rule; when no save is performed, touch is issued exactly when the store
implements it and the identifier equals the one the client presented;
otherwise the store is skipped. -/
theorem spec_c1_save_touch_dispatch (cfg : EndCfg) (t : Tracking) (s : String)
    (sess : Sess) :
    endEvents cfg t ⟨none, some sess⟩ = [Ev.finish]
    ∧ endEvents cfg t ⟨some s, some sess⟩ =
        (if amendedSaveDecision cfg.saveUninitialized t s sess then
          [Ev.saveOp, Ev.finish]
        else if cfg.storeImplementsTouch && decide (t.cookieId = some s) then
          [Ev.touchOp (some s), Ev.finish]
        else [Ev.finish]) := by
  have hdest : shouldDestroy cfg ⟨some s, some sess⟩ = false := by
    simp [shouldDestroy]
  have hamend : amendedSaveDecision cfg.saveUninitialized t s sess
      = shouldSave cfg.saveUninitialized t (some s) sess := rfl
  constructor
  · simp [endEvents, shouldDestroy, sidTruthy, shouldSave, shouldTouch]
  · rw [hamend]
    by_cases hsv : shouldSave cfg.saveUninitialized t (some s) sess = true
    · simp [endEvents, hdest, hsv]
    · simp only [Bool.not_eq_true] at hsv
      simp [endEvents, hdest, hsv, shouldTouch]

/-- Claim C1, refutation of the original statement: with save-uninitialized
disabled, nothing saved yet, no cookie presented and a freshly generated
unmodified session, the claim's disjunctive save rule demands a save (the
session is not "already saved"), yet the source performs no store operation
at all at completion. -/
theorem spec_c1_counterexample :
    claimSaveDecision false ⟨none, "a", [], none⟩ "a" ⟨"a", [], none, false⟩ = true
    ∧ shouldSave false ⟨none, "a", [], none⟩ (some "a") ⟨"a", [], none, false⟩ = false
    ∧ endEvents ⟨false, false, true⟩ ⟨none, "a", [], none⟩
        ⟨some "a", some ⟨"a", [], none, false⟩⟩ = [Ev.finish] := by
  refine ⟨by decide, by decide, by decide⟩

/-- `unsigncookie` fails exactly as the claim words it: when every configured
secret rejects the value, the loop returns `false` (here `none`). -/
theorem unsigncookie_eq_none (unsign1 : String → String → Option String)
    (val : String) (secrets : List String)
    (h : ∀ s ∈ secrets, unsign1 val s = none) :
    unsigncookie unsign1 val secrets = none := by
  induction secrets with
  | nil => rfl
  | cons s rest ih =>
    have h1 : unsign1 val s = none := h s (List.mem_cons_self s rest)
    rw [unsigncookie, h1]
    exact ih fun x hx => h x (List.mem_cons_of_mem s hx)

/-- Claim C5: a presented session cookie that lacks the `s:` prefix or fails
verification under every configured secret resolves as if no cookie had
been presented: the whole resolution is unchanged by the cookie header, and
(absent the deprecated parser fallbacks) the identifier is `undefined`, so
the middleware generates a fresh session and never asks the store to fetch
the presented value. -/
theorem spec_c5_invalid_cookie_ignored (unsign1 : String → String → Option String)
    (name : String) (secrets : List String) (raw : String)
    (h : List (String × String)) (sc cs : Option (List (String × String)))
    (hlook : lookupStr h name = some raw)
    (hfail : raw.take 2 = "s:" → ∀ s ∈ secrets, unsign1 (raw.drop 2) s = none) :
    getcookie unsign1 ⟨some h, sc, cs⟩ name secrets
        = getcookie unsign1 ⟨none, sc, cs⟩ name secrets
    ∧ getcookie unsign1 ⟨some h, none, none⟩ name secrets = none
    ∧ resolveSession unsign1 ⟨some h, none, none⟩ name secrets = .generated
    ∧ resolveSession unsign1 ⟨some h, none, none⟩ name secrets
        = resolveSession unsign1 ⟨none, none, none⟩ name secrets := by
  have hv1 : getcookieHeader unsign1 secrets name (some h) = none := by
    rw [getcookieHeader, hlook]
    by_cases hemp : raw = ""
    · simp [hemp]
    · by_cases hp : raw.take 2 = "s:"
      · simp [hemp, hp, unsigncookie_eq_none unsign1 (raw.drop 2) secrets (hfail hp)]
      · simp [hemp, hp]
  have hv0 : getcookieHeader unsign1 secrets name none = none := rfl
  have hmain : getcookie unsign1 ⟨some h, sc, cs⟩ name secrets
      = getcookie unsign1 ⟨none, sc, cs⟩ name secrets := by
    simp only [getcookie, hv1, hv0]
  refine ⟨hmain, ?_, ?_, ?_⟩
  · simp only [getcookie, hv1]; rfl
  · simp only [resolveSession, getcookie, hv1]; rfl
  · simp only [resolveSession, getcookie, hv1, hv0]

/-- Witness for C5 at a concrete tampered cookie: the hypotheses hold and the
conclusion follows by applying the theorem. -/
theorem spec_c5_witness :
    lookupStr [("connect.sid", "s:abc.def")] "connect.sid" = some "s:abc.def"
    ∧ getcookie (fun _ _ => none)
        ⟨some [("connect.sid", "s:abc.def")], none, none⟩ "connect.sid" ["k1", "k2"]
        = none
    ∧ resolveSession (fun _ _ => none)
        ⟨some [("connect.sid", "s:abc.def")], none, none⟩ "connect.sid" ["k1", "k2"]
        = .generated :=
  ⟨rfl,
   (spec_c5_invalid_cookie_ignored (fun _ _ => none) "connect.sid" ["k1", "k2"]
      "s:abc.def" [("connect.sid", "s:abc.def")] none none rfl
      (fun _ _ _ => rfl)).2.1,
   (spec_c5_invalid_cookie_ignored (fun _ _ => none) "connect.sid" ["k1", "k2"]
      "s:abc.def" [("connect.sid", "s:abc.def")] none none rfl
      (fun _ _ _ => rfl)).2.2.1⟩

/-- Claim C8 (as amended): `MemoryStore.touch` replaces only the cookie field
of the stored snapshot when an unexpired entry exists; it leaves the store
untouched when no entry exists; when the entry exists but is expired it is
deleted (lazy expiration) instead; the callback always reports no error. -/
theorem spec_c8_touch (m : MemStore) (sid : String) (sess : StoredSess) (now : Int)
    (cur : StoredSess) :
    (storeLookup m sid = none → touch m sid sess now = (m, none))
    ∧ (storeLookup m sid = some cur → cookieExpired cur.cookie now = false →
        touch m sid sess now = (storeSet m sid { cur with cookie := sess.cookie }, none))
    ∧ (storeLookup m sid = some cur → cookieExpired cur.cookie now = true →
        touch m sid sess now = (storeDelete m sid, none))
    ∧ ({ cur with cookie := sess.cookie } : StoredSess).fields = cur.fields := by
  refine ⟨?_, ?_, ?_, rfl⟩
  · intro hnone
    simp [touch, getSession, hnone]
  · intro hsome hexp
    simp [touch, getSession, hsome, hexp]
  · intro hsome hexp
    simp [touch, getSession, hsome, hexp]

/-- Claim C8, refutation of the original statement: an entry exists under the
identifier, yet `touch` neither replaces only its cookie field nor leaves
the store unchanged — the expired entry is removed wholesale. -/
theorem spec_c8_counterexample :
    storeLookup [("a", ⟨some ⟨some 5, []⟩, [("k", "v")]⟩)] "a"
        = some ⟨some ⟨some 5, []⟩, [("k", "v")]⟩
    ∧ (touch [("a", ⟨some ⟨some 5, []⟩, [("k", "v")]⟩)] "a"
        ⟨some ⟨some 200, []⟩, []⟩ 10).1 = []
    ∧ storeLookup (touch [("a", ⟨some ⟨some 5, []⟩, [("k", "v")]⟩)] "a"
        ⟨some ⟨some 200, []⟩, []⟩ 10).1 "a" = none := by
  refine ⟨by decide, by decide, by decide⟩

/-- Witness for C8 at a concrete unexpired entry. -/
theorem spec_c8_touch_witness :
    storeLookup [("a", ⟨some ⟨some 100, []⟩, [("k", "v")]⟩)] "a"
        = some ⟨some ⟨some 100, []⟩, [("k", "v")]⟩
    ∧ cookieExpired (some ⟨some 100, []⟩) 5 = false
    ∧ touch [("a", ⟨some ⟨some 100, []⟩, [("k", "v")]⟩)] "a"
        ⟨some ⟨some 200, []⟩, []⟩ 5
        = (storeSet [("a", ⟨some ⟨some 100, []⟩, [("k", "v")]⟩)] "a"
            ⟨some ⟨some 200, []⟩, [("k", "v")]⟩, none) :=
  ⟨rfl, by decide,
   (spec_c8_touch [("a", ⟨some ⟨some 100, []⟩, [("k", "v")]⟩)] "a"
      ⟨some ⟨some 200, []⟩, []⟩ 5 ⟨some ⟨some 100, []⟩, [("k", "v")]⟩).2.1
      rfl (by decide)⟩

/-- Lookup skips a prefix holding none of the key's bindings. -/
theorem storeLookup_append_right (pre l : MemStore) (sid : String)
    (h : sid ∉ pre.map Prod.fst) :
    storeLookup (pre ++ l) sid = storeLookup l sid := by
  induction pre with
  | nil => rfl
  | cons p rest ih =>
    obtain ⟨k, v⟩ := p
    have hk : ¬(k = sid) := by
      intro he
      exact h (by simp [he])
    rw [List.cons_append, storeLookup, if_neg hk]
    exact ih fun hm => h (by simp; right; simpa using hm)

/-- Deletion distributes over append. -/
theorem storeDelete_append (m1 m2 : MemStore) (sid : String) :
    storeDelete (m1 ++ m2) sid = storeDelete m1 sid ++ storeDelete m2 sid := by
  simp [storeDelete, List.filter_append]

/-- Deleting an absent key changes nothing. -/
theorem storeDelete_of_not_mem (m : MemStore) (sid : String)
    (h : sid ∉ m.map Prod.fst) : storeDelete m sid = m := by
  apply List.filter_eq_self.mpr
  intro a ha
  simp only [decide_eq_true_eq]
  intro he
  exact h (List.mem_map.mpr ⟨a, ha, he⟩)

/-- Deleting the head key of a store whose tail does not repeat it peels the
head off. -/
theorem storeDelete_cons_self (sid : String) (v : StoredSess) (tl : MemStore)
    (h : sid ∉ tl.map Prod.fst) :
    storeDelete ((sid, v) :: tl) sid = tl := by
  rw [storeDelete, List.filter_cons]
  simp only [decide_eq_true_eq, ne_eq, not_true_eq_false, if_false]
  exact storeDelete_of_not_mem tl sid h

/-- The loop of `all` over a suffix of keys: with distinct keys, walking the
keys of `rest` over the store `pre ++ rest` appends exactly the unexpired
entries of `rest` to the accumulator and prunes the expired ones from the
store. -/
theorem allGo_spec (now : Int) :
    ∀ (rest pre : MemStore) (acc : List (String × StoredSess)),
      ((pre ++ rest).map Prod.fst).Nodup →
      allGo now (rest.map Prod.fst) acc (pre ++ rest)
        = (acc ++ unexpiredEntries rest now, pre ++ unexpiredEntries rest now) := by
  intro rest
  induction rest with
  | nil =>
    intro pre acc _
    simp [allGo, unexpiredEntries]
  | cons p tl ih =>
    intro pre acc hnd
    obtain ⟨sid, v⟩ := p
    have hnd' := hnd
    rw [List.map_append, List.map_cons, List.nodup_append] at hnd'
    obtain ⟨hn1, hn2, hdisj⟩ := hnd'
    have hsidtl : sid ∉ tl.map Prod.fst := (List.nodup_cons.mp hn2).1
    have hsidpre : sid ∉ pre.map Prod.fst := by
      intro hm
      exact hdisj hm (List.mem_cons_self _ _)
    have hlook : storeLookup (pre ++ (sid, v) :: tl) sid = some v := by
      rw [storeLookup_append_right _ _ _ hsidpre, storeLookup, if_pos rfl]
    by_cases hexp : cookieExpired v.cookie now = true
    · have hdel : storeDelete (pre ++ (sid, v) :: tl) sid = pre ++ tl := by
        rw [storeDelete_append, storeDelete_of_not_mem pre sid hsidpre,
          storeDelete_cons_self sid v tl hsidtl]
      have hget : getSession (pre ++ (sid, v) :: tl) sid now = (none, pre ++ tl) := by
        simp only [getSession, hlook]
        rw [if_pos hexp, hdel]
      have hnd2 : ((pre ++ tl).map Prod.fst).Nodup := by
        rw [List.map_append, List.nodup_append]
        exact ⟨hn1, (List.nodup_cons.mp hn2).2,
          fun a ha hmem => hdisj ha (List.mem_cons_of_mem _ hmem)⟩
      rw [List.map_cons]
      simp only [allGo, hget]
      rw [ih pre acc hnd2]
      simp [unexpiredEntries, List.filter_cons, hexp]
    · have hget : getSession (pre ++ (sid, v) :: tl) sid now
          = (some v, (pre ++ [(sid, v)]) ++ tl) := by
        simp only [getSession, hlook]
        rw [if_neg hexp]
        simp
      have hre : pre ++ (sid, v) :: tl = (pre ++ [(sid, v)]) ++ tl := by
        simp
      have hnd2 : (((pre ++ [(sid, v)]) ++ tl).map Prod.fst).Nodup := by
        rw [← hre]
        exact hnd
      rw [List.map_cons]
      simp only [allGo, hget]
      rw [ih (pre ++ [(sid, v)]) (acc ++ [(sid, v)]) hnd2]
      have hexp' : cookieExpired v.cookie now = false := by
        simpa using hexp
      simp [unexpiredEntries, List.filter_cons, hexp']

/-- Claim C9: with the (always unique) store keys distinct, `all` returns
exactly the entries whose embedded cookie expiration is absent or strictly
after the current instant, pruning every expired entry from the store as a
side effect, and `length` reports the count of exactly those unexpired
entries over the same pruned store. -/
theorem spec_c9_all_length (m : MemStore) (now : Int)
    (h : (m.map Prod.fst).Nodup) :
    allSessions m now = (unexpiredEntries m now, unexpiredEntries m now)
    ∧ lengthSessions m now = ((unexpiredEntries m now).length, unexpiredEntries m now) := by
  have key := allGo_spec now m [] [] (by simpa using h)
  have h1 : allSessions m now = (unexpiredEntries m now, unexpiredEntries m now) := by
    rw [allSessions]
    simpa using key
  exact ⟨h1, by rw [lengthSessions, h1]⟩

/-- Witness for C9 on a two-entry store holding one expired and one unexpired
session. -/
theorem spec_c9_witness :
    (([("a", ⟨some ⟨some 5, []⟩, []⟩), ("b", ⟨none, [("x", "1")]⟩)] : MemStore).map
        Prod.fst).Nodup
    ∧ allSessions [("a", ⟨some ⟨some 5, []⟩, []⟩), ("b", ⟨none, [("x", "1")]⟩)] 10
        = (unexpiredEntries
            [("a", ⟨some ⟨some 5, []⟩, []⟩), ("b", ⟨none, [("x", "1")]⟩)] 10,
          unexpiredEntries
            [("a", ⟨some ⟨some 5, []⟩, []⟩), ("b", ⟨none, [("x", "1")]⟩)] 10)
    ∧ lengthSessions [("a", ⟨some ⟨some 5, []⟩, []⟩), ("b", ⟨none, [("x", "1")]⟩)] 10
        = ((unexpiredEntries
            [("a", ⟨some ⟨some 5, []⟩, []⟩), ("b", ⟨none, [("x", "1")]⟩)] 10).length,
          unexpiredEntries
            [("a", ⟨some ⟨some 5, []⟩, []⟩), ("b", ⟨none, [("x", "1")]⟩)] 10) :=
  ⟨by decide,
   (spec_c9_all_length
      [("a", ⟨some ⟨some 5, []⟩, []⟩), ("b", ⟨none, [("x", "1")]⟩)] 10 (by decide)).1,
   (spec_c9_all_length
      [("a", ⟨some ⟨some 5, []⟩, []⟩), ("b", ⟨none, [("x", "1")]⟩)] 10 (by decide)).2⟩

end ConnectSession
